import Mathlib

/-!
Verification development for the vi-style modal editor (`VimEditor`) of the
repository.  Text is modeled as `List Char` (JS strings are sequences of code
units; all inputs considered stay within plain characters), the line buffer as
`List Str`, and the React component state as an explicit `EditorState` record.
Each `useState` setter is applied in program order; values read from the
closure of a handler are taken from the state at handler entry, matching the
semantics of the hooks in the source.  Calls to the `onSave`/`onExit`
collaborators and to `showStatus` are collected in an effects record `Fx`.
In-place array assignment (`newLines[i] = x`) is modeled as `List.set`; the
two agree on every in-bounds index, which all uses below stay within.
-/

abbrev Str := List Char

/-- Whitespace as matched by `\s` / `trim` / `trimStart` in the source
(restricted to the ASCII space forms that can occur in buffer text). -/
def isWS (c : Char) : Bool :=
  c = ' ' || c = '\t' || c = '\n' || c = '\r' || c = '\x0b' || c = '\x0c'

/-- Prefix test for character lists (as `p.isPrefixOf s`), with equations kept simp-friendly. -/
def strStarts : Str → Str → Bool
  | [], _ => true
  | _ :: _, [] => false
  | p :: ps, c :: cs => p = c && strStarts ps cs

/-- Index of the first occurrence of `pat` in `s` (`none` if absent).
For `pat = []` this is `some 0`, matching `String.prototype.indexOf`. -/
def findSub (pat : Str) : Str → Option Nat
  | [] => if pat = [] then some 0 else none
  | c :: rest =>
    if strStarts pat (c :: rest) then some 0
    else (findSub pat rest).map (· + 1)

/-- Model of `String.prototype.split` with a nonempty separator, fueled so that the
definition is structural (adequate fuel is supplied by `jsSplit`). -/
def jsSplitGo (sep : Str) : Nat → Str → List Str
  | 0, s => [s]
  | fuel + 1, s =>
    match findSub sep s with
    | none => [s]
    | some i => s.take i :: jsSplitGo sep fuel (s.drop (i + sep.length))

/-- Model of `String.prototype.split`: a nonempty separator splits at every occurrence;
the empty separator splits into single characters. -/
def jsSplit (sep s : Str) : List Str :=
  if sep = [] then s.map (fun c => [c]) else jsSplitGo sep (s.length + 1) s

/-- Model of `Array.prototype.join` on a list of strings. -/
def jsJoin (sep : Str) : List Str → Str
  | [] => []
  | [x] => x
  | x :: y :: xs => x ++ sep ++ jsJoin sep (y :: xs)

/-- The `GetSubstitution` step of `String.prototype.replace` with a string
pattern: dollar escapes in the replacement are interpreted (`$$`, `$&`, the
dollar-backquote prefix form and the dollar-quote suffix form); any other
dollar is literal.  `matched` is the matched text, `pre`/`post` the text
before/after the match. -/
def getSubst (matched pre post : Str) : Str → Str
  | [] => []
  | [c] => [c]
  | c :: c2 :: r2 =>
    if c = '$' then
      if c2 = '$' then '$' :: getSubst matched pre post r2
      else if c2 = '&' then matched ++ getSubst matched pre post r2
      else if c2 = Char.ofNat 96 then pre ++ getSubst matched pre post r2
      else if c2 = Char.ofNat 39 then post ++ getSubst matched pre post r2
      else '$' :: getSubst matched pre post (c2 :: r2)
    else c :: getSubst matched pre post (c2 :: r2)

/-- Model of `s.replace(old, new)` with string arguments: replaces the first occurrence
of `old`, running the replacement through `getSubst`. -/
def jsReplace (old new s : Str) : Str :=
  match findSub old s with
  | none => s
  | some i =>
    s.take i ++ getSubst old (s.take i) (s.drop (i + old.length)) new
      ++ s.drop (i + old.length)

/-- Modelled from the spec: replace only the first occurrence of `old` by
`new`, with `new` inserted literally. -/
def replaceFirstLiteral (old new s : Str) : Str :=
  match findSub old s with
  | none => s
  | some i => s.take i ++ new ++ s.drop (i + old.length)

/-- Fueled worker for `replaceAllLiteral`. -/
def replAllGo (old new : Str) : Nat → Str → Str
  | 0, s => s
  | fuel + 1, s =>
    match findSub old s with
    | none => s
    | some i => s.take i ++ new ++ replAllGo old new fuel (s.drop (i + old.length))

/-- Modelled from the spec: replace every occurrence of `old` by `new` on the
line, scanning left to right, with `new` inserted literally. -/
def replaceAllLiteral (old new s : Str) : Str :=
  replAllGo old new (s.length + 1) s

/-- Digit run value (decimal). -/
def decVal (ds : Str) : Nat :=
  ds.foldl (fun a c => a * 10 + (c.toNat - '0'.toNat)) 0

/-- Hex digit predicate for `parseInt`'s `0x` form. -/
def isHexDig (c : Char) : Bool :=
  c.isDigit || decide ('a' ≤ c ∧ c ≤ 'f') || decide ('A' ≤ c ∧ c ≤ 'F')

/-- Hex digit value. -/
def hexDigVal (c : Char) : Nat :=
  if c.isDigit then c.toNat - '0'.toNat
  else if decide ('a' ≤ c) then c.toNat - 'a'.toNat + 10
  else c.toNat - 'A'.toNat + 10

/-- Hex run value. -/
def hexVal (ds : Str) : Nat :=
  ds.foldl (fun a c => a * 16 + hexDigVal c) 0

/-- Leading decimal digit run of `parseInt` (after sign handling); `none`
when there is no digit, i.e. `NaN`. -/
def parseDecRun (s : Str) : Option Nat :=
  let d := s.takeWhile Char.isDigit
  if d = [] then none else some (decVal d)

/-- Unsigned part of `parseInt`: a `0x`/`0X` prefix switches to hex,
otherwise the leading decimal digit run is taken. -/
def parseUnsigned (s : Str) : Option Nat :=
  match s with
  | c0 :: c1 :: r =>
    if c0 = '0' ∧ (c1 = 'x' ∨ c1 = 'X') then
      let h := r.takeWhile isHexDig
      if h = [] then none else some (hexVal h)
    else parseDecRun s
  | _ => parseDecRun s

/-- Model of `parseInt` on an already-trimmed string: optional sign, then the
unsigned part; `none` models `NaN`. -/
def jsParseInt (s : Str) : Option Int :=
  match s with
  | [] => none
  | c :: r =>
    if c = '-' then (parseUnsigned r).map (fun n => -(n : Int))
    else if c = '+' then (parseUnsigned r).map (fun n => (n : Int))
    else (parseUnsigned s).map (fun n => (n : Int))

/-- Model of `String.prototype.trim`. -/
def jsTrim (s : Str) : Str :=
  (((s.dropWhile isWS).reverse).dropWhile isWS).reverse

/-- Model of `Array.prototype.splice(start, delCount, ...items)` for non-negative
`start`: the start index is clamped to the length, `delCount` elements are
removed there and `items` inserted. -/
def listSplice (start delCount : Nat) (items : List α) (l : List α) : List α :=
  let st := min start l.length
  l.take st ++ items ++ l.drop (st + delCount)

/-- Decimal rendering of a count, as interpolated into template literals. -/
def natStr (n : Nat) : Str := (Nat.repr n).data

example : jsSplit ['/'] ("s/a/b/g".data) = ["s".data, "a".data, "b".data, "g".data] := by decide
example : jsSplit ['\n'] ("a\nb\nc".data) = ["a".data, "b".data, "c".data] := by decide
example : jsJoin ['\n'] ["a".data, "b".data] = "a\nb".data := by decide
example : jsReplace ("a".data) ("$&$&".data) ("a".data) = "aa".data := by decide
example : replaceFirstLiteral (",".data) (";".data) ("a,b,c".data) = "a;b,c".data := by decide
example : replaceAllLiteral (",".data) (";".data) ("a,b,c".data) = "a;b;c".data := by decide
example : jsJoin (";".data) (jsSplit (",".data) ("a,b,c".data)) = "a;b;c".data := by decide
example : jsParseInt ("5".data) = some 5 := by decide
example : jsParseInt ("q".data) = none := by decide
example : jsParseInt ("0x10".data) = some 16 := by decide
example : jsParseInt ("-3".data) = some (-3) := by decide
example : jsTrim (" q! ".data) = "q!".data := by decide
example : natStr 12 = "12".data := by decide

/-! ## Editor state -/

/-- The `type VimMode` of the source. -/
inductive VimMode where
  | normal
  | insert
  | visual
  | command
  | replace
deriving DecidableEq, Repr

/-- The `interface CursorPosition`.  Indices are modeled on `Nat`; every place
where the source lets an index go below zero immediately clamps it back with
`Math.max(0, _)`, which Nat subtraction matches. -/
structure CursorPosition where
  line : Nat
  col : Nat
deriving DecidableEq, Repr

/-- The `useState` cells of `VimEditor`, plus the `filename` prop.
`statusMessage` is not part of the state here: `showStatus` calls are
collected as effects. -/
structure EditorState where
  filename : Str
  lines : List Str
  mode : VimMode
  cursor : CursorPosition
  commandBuffer : Str
  modified : Bool
  visualStart : Option CursorPosition
  yankBuffer : List Str
  searchPattern : Str
  lastCommand : Str
  numberBuffer : Str
deriving DecidableEq, Repr

/-- Observable effects of one handler invocation: `showStatus` messages,
`onSave(content)` payloads, and whether `onExit` was invoked. -/
structure Fx where
  msgs : List Str := []
  saved : List Str := []
  exited : Bool := false
deriving DecidableEq, Repr

/-- Sequencing of effects. -/
def mergeFx (a b : Fx) : Fx :=
  ⟨a.msgs ++ b.msgs, a.saved ++ b.saved, a.exited || b.exited⟩

/-- A keyboard event as seen by the handlers: `e.key`, `e.ctrlKey`,
`e.metaKey`. -/
structure KeyEvent where
  key : String
  ctrl : Bool := false
  meta : Bool := false
deriving DecidableEq, Repr

/-- Model of `lns[i]?.length || 1`: an absent line and an empty line both count as 1. -/
def lineLenOr1 (lns : List Str) (i : Nat) : Nat :=
  let L := (lns.getD i []).length
  if L = 0 then 1 else L

/-- Model of `clampCursor` (source lines 222-229): the line is clamped to
`[0, len-1]`, the column to `[0, lineLength]` in insert mode and to
`[0, max(lineLength-1, 0)]` otherwise (with the `|| 1` quirk folded in, which
yields the same bound).  `mode` is the mode captured by the closure. -/
def clampCursor (mode : VimMode) (pos : CursorPosition) (lns : List Str) :
    CursorPosition :=
  let line := min pos.line (lns.length - 1)
  let maxCol := lineLenOr1 lns line - 1
  let col :=
    if mode = .insert then min pos.col ((lns.getD line []).length)
    else min pos.col maxCol
  ⟨line, col⟩

/-- Model of `getContent`: `lines.join('\n')`. -/
def getContent (lines : List Str) : Str := jsJoin ['\n'] lines

/-- Iterate a state transformer, for the `for (let i = 0; i < count; i++)`
loops of the normal-mode handler. -/
def iterate (f : α → α) : Nat → α → α
  | 0, a => a
  | n + 1, a => iterate f n (f a)

/-! ## Movement commands.  Each takes the handler-entry snapshot `s0` (the
closure of the `useCallback`) and the running state `s`; `setCursor` uses a
functional update, so the cursor evolves across loop iterations while
`lines`/`mode` stay those of the closure. -/

def moveLeftOp (s0 s : EditorState) : EditorState :=
  {s with cursor := clampCursor s0.mode ⟨s.cursor.line, s.cursor.col - 1⟩ s0.lines}

def moveRightOp (s0 s : EditorState) : EditorState :=
  {s with cursor := clampCursor s0.mode ⟨s.cursor.line, s.cursor.col + 1⟩ s0.lines}

def moveUpOp (s0 s : EditorState) : EditorState :=
  {s with cursor := clampCursor s0.mode ⟨s.cursor.line - 1, s.cursor.col⟩ s0.lines}

def moveDownOp (s0 s : EditorState) : EditorState :=
  {s with cursor := clampCursor s0.mode ⟨s.cursor.line + 1, s.cursor.col⟩ s0.lines}

/-- Model of `moveToLineEnd`: `col = max(0, lineLength - 1)`. -/
def moveToLineEndOp (s : EditorState) : EditorState :=
  {s with cursor :=
    ⟨s.cursor.line, (s.lines.getD s.cursor.line []).length - 1⟩}

/-- Model of `moveToFirstNonWhitespace`: `col = min(leading-whitespace, length - 1)`.
The index arithmetic saturates at 0 here; on an empty line JS stores `-1`
where this model stores `0` (visible only through `^` on an empty line). -/
def moveToFirstNonWSOp (s : EditorState) : EditorState :=
  let line := s.lines.getD s.cursor.line []
  let ws := (line.takeWhile isWS).length
  {s with cursor := ⟨s.cursor.line, min ws (line.length - 1)⟩}

/-- Model of `moveWordForward`: skip `\s*\S+\s*` from the current column; if that
stays within the line, move there, otherwise advance to the next line at
column 0 (or stay put on the last line). -/
def moveWordForwardOp (s0 s : EditorState) : EditorState :=
  let line := s0.lines.getD s.cursor.line []
  let rest := line.drop s.cursor.col
  let ws1 := rest.takeWhile isWS
  let tok := (rest.drop ws1.length).takeWhile (fun c => !isWS c)
  let ws2 := ((rest.drop ws1.length).drop tok.length).takeWhile isWS
  let newCol := s.cursor.col + ws1.length + tok.length + ws2.length
  if tok ≠ [] ∧ newCol < line.length then
    {s with cursor := ⟨s.cursor.line, newCol⟩}
  else if s.cursor.line < s0.lines.length - 1 then
    {s with cursor := ⟨s.cursor.line + 1, 0⟩}
  else s

/-- Model of `moveWordBackward`: at column 0, jump to the end of the previous line;
otherwise strip `\S+\s*` backwards, or go to column 0 if the text before the
cursor is all whitespace. -/
def moveWordBackwardOp (s0 s : EditorState) : EditorState :=
  if s.cursor.col = 0 then
    if s.cursor.line > 0 then
      {s with cursor :=
        ⟨s.cursor.line - 1, lineLenOr1 s0.lines (s.cursor.line - 1) - 1⟩}
    else s
  else
    let line := s0.lines.getD s.cursor.line []
    let before := (line.take s.cursor.col).reverse
    let ws := before.takeWhile isWS
    let tok := (before.drop ws.length).takeWhile (fun c => !isWS c)
    if tok = [] then {s with cursor := ⟨s.cursor.line, 0⟩}
    else {s with cursor := ⟨s.cursor.line, s.cursor.col - (ws.length + tok.length)⟩}

/-! ## Editing commands.  `setLines` uses functional updates (so the lines
evolve through loops) while `cursor` is read from the closure `s0`. -/

/-- Model of `insertChar` (also used for Tab, which passes two spaces). -/
def insertCharOp (cs : Str) (s : EditorState) : EditorState :=
  let line := s.lines.getD s.cursor.line []
  {s with
    lines := s.lines.set s.cursor.line
      (line.take s.cursor.col ++ cs ++ line.drop s.cursor.col)
    cursor := ⟨s.cursor.line, s.cursor.col + 1⟩
    modified := true}

/-- Model of `insertNewLine`: split the current line at the cursor. -/
def insertNewLineOp (s : EditorState) : EditorState :=
  let line := s.lines.getD s.cursor.line []
  let before := line.take s.cursor.col
  let after := line.drop s.cursor.col
  {s with
    lines := listSplice (s.cursor.line + 1) 0 [after]
      (s.lines.set s.cursor.line before)
    cursor := ⟨s.cursor.line + 1, 0⟩
    modified := true}

/-- Model of `deleteChar` (`x`, and Delete in insert mode): removes the character at
the closure cursor `c0`, or joins with the next line when at/past the line
end; the cursor itself is not moved. -/
def deleteCharLines (c0 : CursorPosition) (lines : List Str) : List Str :=
  let line := lines.getD c0.line []
  if c0.col < line.length then
    lines.set c0.line (line.take c0.col ++ line.drop (c0.col + 1))
  else if c0.line < lines.length - 1 then
    listSplice (c0.line + 1) 1 []
      (lines.set c0.line (line ++ lines.getD (c0.line + 1) []))
  else lines

def deleteCharOp (s0 s : EditorState) : EditorState :=
  {s with lines := deleteCharLines s0.cursor s.lines, modified := true}

/-- Model of `backspace`: within a line, delete before the closure cursor and move
left; at column 0, join with the previous line.  `prevLineLen` comes from the
closure lines. -/
def backspaceOp (s0 s : EditorState) : EditorState :=
  if s0.cursor.col > 0 then
    let line := s.lines.getD s0.cursor.line []
    {s with
      lines := s.lines.set s0.cursor.line
        (line.take (s0.cursor.col - 1) ++ line.drop s0.cursor.col)
      cursor := ⟨s.cursor.line, s.cursor.col - 1⟩
      modified := true}
  else if s0.cursor.line > 0 then
    let prevLineLen := (s0.lines.getD (s0.cursor.line - 1) []).length
    {s with
      lines := listSplice s0.cursor.line 1 []
        (s.lines.set (s0.cursor.line - 1)
          (s.lines.getD (s0.cursor.line - 1) [] ++ s.lines.getD s0.cursor.line []))
      cursor := ⟨s0.cursor.line - 1, prevLineLen⟩
      modified := true}
  else s

/-- The shared splice-and-refill used by `deleteLine` and the visual-mode
delete: remove the range, and push one empty line if the buffer became
empty. -/
def spliceOrEmpty (start delCount : Nat) (lines : List Str) : List Str :=
  let nl := listSplice start delCount [] lines
  if nl = [] then [[]] else nl

/-- Model of `deleteLine` (source lines 380-392): yanks the removed lines, removes
`count` lines at the cursor line, and re-clamps the cursor — against the
pre-deletion `lines` closure value when `lines.length > count`, else against
`['']`. -/
def deleteLineOp (count : Nat) (s : EditorState) : EditorState × Fx :=
  ({s with
      yankBuffer := (s.lines.drop s.cursor.line).take count
      lines := spliceOrEmpty s.cursor.line count s.lines
      cursor := clampCursor s.mode s.cursor
        (if count < s.lines.length then s.lines else [[]])
      modified := true},
   {msgs := [natStr count ++ (" line".data) ++ (if 1 < count then ['s'] else [])
      ++ (" deleted".data)]})

/-- Model of `yankLine` (source lines 394-398). -/
def yankLineOp (count : Nat) (s : EditorState) : EditorState × Fx :=
  ({s with yankBuffer := (s.lines.drop s.cursor.line).take count},
   {msgs := [natStr count ++ (" line".data) ++ (if 1 < count then ['s'] else [])
      ++ (" yanked".data)]})

/-- The `n line(s) pasted` status message. -/
def pastedMsg (n : Nat) : Str :=
  natStr n ++ (" line".data) ++ (if 1 < n then ['s'] else []) ++ (" pasted".data)

/-- Model of `pasteBefore` (source lines 400-409): no-op on an empty register;
otherwise splices the register before the cursor line.  The cursor is not
moved. -/
def pasteBeforeOp (s : EditorState) : EditorState × Fx :=
  if s.yankBuffer = [] then (s, {})
  else
    ({s with
        lines := listSplice s.cursor.line 0 s.yankBuffer s.lines
        modified := true},
     {msgs := [pastedMsg s.yankBuffer.length]})

/-- Model of `pasteAfter` (source lines 411-421): no-op on an empty register;
otherwise splices the register after the cursor line and moves the cursor to
line+1, column 0. -/
def pasteAfterOp (s : EditorState) : EditorState × Fx :=
  if s.yankBuffer = [] then (s, {})
  else
    ({s with
        lines := listSplice (s.cursor.line + 1) 0 s.yankBuffer s.lines
        cursor := ⟨s.cursor.line + 1, 0⟩
        modified := true},
     {msgs := [pastedMsg s.yankBuffer.length]})

/-- Model of `openLineBelow` (`o`). -/
def openLineBelowOp (s : EditorState) : EditorState :=
  {s with
    lines := listSplice (s.cursor.line + 1) 0 [[]] s.lines
    cursor := ⟨s.cursor.line + 1, 0⟩
    mode := .insert
    modified := true}

/-- Model of `openLineAbove` (`O`): inserts above and only resets the column. -/
def openLineAboveOp (s : EditorState) : EditorState :=
  {s with
    lines := listSplice s.cursor.line 0 [[]] s.lines
    cursor := ⟨s.cursor.line, 0⟩
    mode := .insert
    modified := true}

/-- Model of `joinLines` (`J`): no-op on the last line; otherwise appends the
`trimStart`-ed next line with a single space (no space if the current line is
empty). -/
def joinLinesOp (s : EditorState) : EditorState :=
  if s.cursor.line ≥ s.lines.length - 1 then s
  else
    let currentLine := s.lines.getD s.cursor.line []
    let nextLine := (s.lines.getD (s.cursor.line + 1) []).dropWhile isWS
    {s with
      lines := listSplice (s.cursor.line + 1) 1 []
        (s.lines.set s.cursor.line
          (currentLine ++ (if currentLine.length > 0 then [' '] else []) ++ nextLine))
      modified := true}

/-! ## Search -/

/-- Model of `indexOf(pat, from)` on one line. -/
def jsIndexOfFrom (pat l : Str) (start : Nat) : Option Nat :=
  let st := min start l.length
  (findSub pat (l.drop st)).map (· + st)

/-- Scan the lines below the start line (each from column 0). -/
def searchRest (pat : Str) : List Str → Nat → Option (Nat × Nat)
  | [], _ => none
  | l :: ls, i =>
    match findSub pat l with
    | some j => some (i, j)
    | none => searchRest pat ls (i + 1)

/-- The forward scan shared by the `/pattern` ex-command and `n`: the start
line is searched from `col + 1`, later lines from column 0; no wraparound. -/
def searchFwd (pat : Str) (lines : List Str) (fromLine fromCol : Nat) :
    Option (Nat × Nat) :=
  match lines.drop fromLine with
  | [] => none
  | l0 :: rest =>
    match jsIndexOfFrom pat l0 (fromCol + 1) with
    | some j => some (fromLine, j)
    | none => searchRest pat rest (fromLine + 1)

/-- Model of `lastIndexOf(pat)` on one line. -/
def lastSub (pat l : Str) : Option Nat :=
  ((List.range (l.length + 1)).filter (fun i => strStarts pat (l.drop i))).getLast?

/-- Scan upward through lines listed top-down reversed, indexed by `i`
descending. -/
def searchBwdAux (pat : Str) : List Str → Nat → Option (Nat × Nat)
  | [], _ => none
  | l :: ls, i =>
    match lastSub pat l with
    | some j => some (i, j)
    | none => searchBwdAux pat ls (i - 1)

/-- The backward scan of `N`: the current line restricted to before the
cursor column, then previous lines whole; no wraparound. -/
def searchBwd (pat : Str) (lines : List Str) (curLine curCol : Nat) :
    Option (Nat × Nat) :=
  let first := (lines.getD curLine []).take curCol
  match lastSub pat first with
  | some j => some (curLine, j)
  | none => searchBwdAux pat ((lines.take curLine).reverse) (curLine - 1)

/-! ## Ex-command interpreter (`executeVimCommand`, source lines 467-580). -/

/-- Fixed status strings of the interpreter. -/
def e37Msg : Str := "E37: No write since last change (add ! to override)".data

def e492Msg (t : Str) : Str := ("E492: Not an editor command: ".data) ++ t

def backSearchMsg : Str := "Backward search not yet implemented".data

def setNuMsg : Str := "Line numbers are always shown".data

def setNonuMsg : Str := "Line numbers cannot be hidden in this version".data

/-- The `"<name>" <L>L, <C>C written` message of `:w`. -/
def writtenMsg (filename : Str) (lines : List Str) : Str :=
  '"' :: filename ++ ('"' :: ' ' :: natStr lines.length) ++ ("L, ".data)
    ++ natStr (getContent lines).length ++ ("C written".data)

/-- The `"<name>" <L>L written` message of `:wq`/`:x`. -/
def wqMsg (filename : Str) (lines : List Str) : Str :=
  '"' :: filename ++ ('"' :: ' ' :: natStr lines.length) ++ ("L written".data)

/-- Line-number jump: `max(0, min(lineNum - 1, lines.length - 1))`,
computed on integers. -/
def jumpLine (n : Int) (len : Nat) : Nat :=
  (max 0 (min (n - 1) ((len : Int) - 1))).toNat

/-- The per-line substitution rule shared verbatim by the `s/` and `%s/`
branches: with the `g` flag, `line.split(old).join(new)`, otherwise
`line.replace(old, new)`. -/
def subRule (oldT newT flags l : Str) : Str :=
  if 'g' ∈ flags then jsJoin newT (jsSplit oldT l) else jsReplace oldT newT l

/-- The `s/old/new/[g]` branch: parse by splitting the whole command on `/`;
substitute on the current line only; report `1 substitution` exactly when the
line changed, else `Pattern not found` with the buffer untouched. -/
def cmdSubst (t : Str) (s : EditorState) : EditorState × Fx :=
  let parts := jsSplit ['/'] t
  if parts.length ≥ 3 then
    let oldT := parts.getD 1 []
    let newT := parts.getD 2 []
    let flags := parts.getD 3 []
    let currentLine := s.lines.getD s.cursor.line []
    let newLine := subRule oldT newT flags currentLine
    if newLine ≠ currentLine then
      ({s with
          lines := s.lines.set s.cursor.line newLine
          modified := true
          mode := .normal},
       {msgs := ["1 substitution".data]})
    else ({s with mode := .normal}, {msgs := ["Pattern not found".data]})
  else ({s with mode := .normal}, {})

/-- The `%s/old/new/[g]` branch: the same rule mapped over every line; the
count of changed lines is reported. -/
def cmdGlobalSubst (t : Str) (s : EditorState) : EditorState × Fx :=
  let parts := jsSplit ['/'] (t.drop 1)
  if parts.length ≥ 3 then
    let oldT := parts.getD 1 []
    let newT := parts.getD 2 []
    let flags := parts.getD 3 []
    let count := s.lines.countP (fun l => decide (subRule oldT newT flags l ≠ l))
    ({s with
        lines := s.lines.map (subRule oldT newT flags)
        modified := true
        mode := .normal},
     {msgs := [natStr count ++ (" substitution".data)
        ++ (if count = 1 then [] else ['s'])]})
  else ({s with mode := .normal}, {})

/-- The `/pattern` branch: record the pattern, scan forward from just after
the cursor column, move there on a hit; `Pattern not found` otherwise. -/
def cmdSearch (pat : Str) (s : EditorState) : EditorState × Fx :=
  match searchFwd pat s.lines s.cursor.line s.cursor.col with
  | some (i, j) =>
    ({s with searchPattern := pat, cursor := ⟨i, j⟩, mode := .normal},
     {msgs := ['/' :: pat]})
  | none =>
    ({s with searchPattern := pat, mode := .normal},
     {msgs := [("Pattern not found: ".data) ++ pat]})

def executeVimCommand (cmd : Str) (s : EditorState) : EditorState × Fx :=
  let t := jsTrim cmd
  match jsParseInt t with
  | some n =>
    ({s with cursor := ⟨jumpLine n s.lines.length, 0⟩, mode := .normal}, {})
  | none =>
    if t = ['w'] then
      ({s with modified := false, mode := .normal},
       {msgs := [writtenMsg s.filename s.lines], saved := [getContent s.lines]})
    else if t = ['q'] then
      if s.modified then ({s with mode := .normal}, {msgs := [e37Msg]})
      else (s, {exited := true})
    else if t = ['q', '!'] then (s, {exited := true})
    else if t = ['w', 'q'] ∨ t = ['x'] then
      (s, {msgs := [wqMsg s.filename s.lines], saved := [getContent s.lines],
           exited := true})
    else if t = ['w', 'q', '!'] then
      (s, {saved := [getContent s.lines], exited := true})
    else if strStarts ['/'] t then cmdSearch (t.drop 1) s
    else if strStarts ['?'] t then
      ({s with searchPattern := t.drop 1, mode := .normal},
       {msgs := [backSearchMsg]})
    else if strStarts ['s', '/'] t then cmdSubst t s
    else if strStarts ['%', 's', '/'] t then cmdGlobalSubst t s
    else if t = ("set nu".data) ∨ t = ("set number".data) then
      ({s with mode := .normal}, {msgs := [setNuMsg]})
    else if t = ("set nonu".data) ∨ t = ("set nonumber".data) then
      ({s with mode := .normal}, {msgs := [setNonuMsg]})
    else ({s with mode := .normal}, {msgs := [e492Msg t]})

/-! ## Mode handlers -/

def undoMsg : Str := "Undo not yet implemented".data

def redoMsg : Str := "Redo not yet implemented".data

def repeatMsg : Str := "Repeat command not yet implemented".data

/-- Model of `parseInt(numberBuffer) || 1` (the buffer holds only digits). -/
def countOf (nb : Str) : Nat :=
  match jsParseInt nb with
  | none => 1
  | some n => if n.toNat = 0 then 1 else n.toNat

/-- Model of `/^[0-9]$/.test(key)`. -/
def isDigitKey (k : String) : Bool :=
  match k.data with
  | [c] => c.isDigit
  | _ => false

/-- Model of `handleNormalModeKey` (source lines 583-884).  Every switch case ends in
`resetNumber`; the digit-prefix branch returns early instead. -/
def handleNormalModeKey (e : KeyEvent) (s : EditorState) : EditorState × Fx :=
  let count := countOf s.numberBuffer
  let k := e.key
  if isDigitKey k ∧ (s.numberBuffer ≠ [] ∨ k ≠ "0") then
    ({s with numberBuffer := s.numberBuffer ++ k.data}, {})
  else
    let (s', fx) : EditorState × Fx :=
      if k = "h" ∨ k = "ArrowLeft" then (iterate (moveLeftOp s) count s, {})
      else if k = "j" ∨ k = "ArrowDown" then (iterate (moveDownOp s) count s, {})
      else if k = "k" ∨ k = "ArrowUp" then (iterate (moveUpOp s) count s, {})
      else if k = "l" ∨ k = "ArrowRight" then (iterate (moveRightOp s) count s, {})
      else if k = "0" then ({s with cursor := ⟨s.cursor.line, 0⟩}, {})
      else if k = "$" then (moveToLineEndOp s, {})
      else if k = "^" then (moveToFirstNonWSOp s, {})
      else if k = "w" then (iterate (moveWordForwardOp s) count s, {})
      else if k = "b" then (iterate (moveWordBackwardOp s) count s, {})
      else if k = "g" then
        if s.lastCommand = ['g'] then
          ({s with cursor := ⟨0, 0⟩, lastCommand := []}, {})
        else ({s with lastCommand := ['g']}, {})
      else if k = "G" then
        if s.numberBuffer ≠ [] then
          ({s with cursor := ⟨min (count - 1) (s.lines.length - 1), 0⟩}, {})
        else ({s with cursor := ⟨s.lines.length - 1, 0⟩}, {})
      else if k = "i" then ({s with mode := .insert}, {})
      else if k = "I" then ({moveToFirstNonWSOp s with mode := .insert}, {})
      else if k = "a" then
        ({s with
            cursor := ⟨s.cursor.line,
              min (s.cursor.col + 1) (s.lines.getD s.cursor.line []).length⟩,
            mode := .insert}, {})
      else if k = "A" then
        ({s with
            cursor := ⟨s.cursor.line, (s.lines.getD s.cursor.line []).length⟩,
            mode := .insert}, {})
      else if k = "o" then (openLineBelowOp s, {})
      else if k = "O" then (openLineAboveOp s, {})
      else if k = "R" then ({s with mode := .replace}, {})
      else if k = "v" then
        ({s with mode := .visual, visualStart := some s.cursor}, {})
      else if k = "V" then
        ({s with mode := .visual, visualStart := some ⟨s.cursor.line, 0⟩}, {})
      else if k = ":" then ({s with mode := .command, commandBuffer := []}, {})
      else if k = "/" then ({s with mode := .command, commandBuffer := ['/']}, {})
      else if k = "x" then (iterate (deleteCharOp s) count s, {})
      else if k = "X" then (iterate (backspaceOp s) count s, {})
      else if k = "d" then
        if s.lastCommand = ['d'] then
          let (s1, fx1) := deleteLineOp count s
          ({s1 with lastCommand := []}, fx1)
        else ({s with lastCommand := ['d']}, {})
      else if k = "D" then
        let line := s.lines.getD s.cursor.line []
        ({s with
            lines := s.lines.set s.cursor.line (line.take s.cursor.col),
            modified := true}, {})
      else if k = "y" then
        if s.lastCommand = ['y'] then
          let (s1, fx1) := yankLineOp count s
          ({s1 with lastCommand := []}, fx1)
        else ({s with lastCommand := ['y']}, {})
      else if k = "Y" then yankLineOp count s
      else if k = "p" then pasteAfterOp s
      else if k = "P" then pasteBeforeOp s
      else if k = "J" then (joinLinesOp s, {})
      else if k = "u" then (s, {msgs := [undoMsg]})
      else if k = "r" then ({s with lastCommand := ['r']}, {})
      else if k = "c" then
        if s.lastCommand = ['c'] then
          ({s with
              yankBuffer := [s.lines.getD s.cursor.line []],
              lines := s.lines.set s.cursor.line [],
              cursor := ⟨s.cursor.line, 0⟩,
              mode := .insert,
              modified := true,
              lastCommand := []}, {})
        else ({s with lastCommand := ['c']}, {})
      else if k = "C" then
        let line := s.lines.getD s.cursor.line []
        ({s with
            lines := s.lines.set s.cursor.line (line.take s.cursor.col),
            mode := .insert,
            modified := true}, {})
      else if k = "s" then ({deleteCharOp s s with mode := .insert}, {})
      else if k = "S" then
        ({s with
            yankBuffer := [s.lines.getD s.cursor.line []],
            lines := s.lines.set s.cursor.line [],
            cursor := ⟨s.cursor.line, 0⟩,
            mode := .insert,
            modified := true}, {})
      else if k = "n" then
        if s.searchPattern ≠ [] then
          match searchFwd s.searchPattern s.lines s.cursor.line s.cursor.col with
          | some (i, j) => ({s with cursor := ⟨i, j⟩}, {})
          | none => (s, {})
        else (s, {})
      else if k = "N" then
        if s.searchPattern ≠ [] then
          match searchBwd s.searchPattern s.lines s.cursor.line s.cursor.col with
          | some (i, j) => ({s with cursor := ⟨i, j⟩}, {})
          | none => (s, {})
        else (s, {})
      else if k = "Escape" then ({s with lastCommand := []}, {})
      else if k = "." then (s, {msgs := [repeatMsg]})
      else if k = "Control" then
        if e.ctrl ∧ e.key = "r" then (s, {msgs := [redoMsg]}) else (s, {})
      else
        if s.lastCommand = ['r'] ∧ k.length = 1 then
          let line := s.lines.getD s.cursor.line []
          ({s with
              lines := s.lines.set s.cursor.line
                (line.take s.cursor.col ++ k.data ++ line.drop (s.cursor.col + 1)),
              modified := true,
              lastCommand := []}, {})
        else (s, {})
    ({s' with numberBuffer := []}, fx)

/-- Model of `handleInsertModeKey` (source lines 887-940).  The Escape clamp runs with
the closure mode, still `insert`. -/
def handleInsertModeKey (e : KeyEvent) (s : EditorState) : EditorState × Fx :=
  if e.key = "Escape" then
    ({s with
        mode := .normal,
        cursor := clampCursor s.mode ⟨s.cursor.line, s.cursor.col - 1⟩ s.lines},
     {})
  else if e.key = "Backspace" then (backspaceOp s s, {})
  else if e.key = "Delete" then (deleteCharOp s s, {})
  else if e.key = "Enter" then (insertNewLineOp s, {})
  else if e.key = "Tab" then (insertCharOp ("  ".data) s, {})
  else if e.key = "ArrowLeft" then (moveLeftOp s s, {})
  else if e.key = "ArrowRight" then
    ({s with cursor := ⟨s.cursor.line,
        min (s.cursor.col + 1) (s.lines.getD s.cursor.line []).length⟩}, {})
  else if e.key = "ArrowUp" then (moveUpOp s s, {})
  else if e.key = "ArrowDown" then (moveDownOp s s, {})
  else if e.key.length = 1 ∧ ¬e.ctrl ∧ ¬e.meta then (insertCharOp e.key.data s, {})
  else (s, {})

/-- Model of `handleReplaceModeKey` (source lines 943-964): overwrite in place while
inside the line, append past its end; the column always advances. -/
def handleReplaceModeKey (e : KeyEvent) (s : EditorState) : EditorState × Fx :=
  if e.key = "Escape" then ({s with mode := .normal}, {})
  else if e.key.length = 1 ∧ ¬e.ctrl ∧ ¬e.meta then
    let line := s.lines.getD s.cursor.line []
    let newLine :=
      if s.cursor.col < line.length then
        line.take s.cursor.col ++ e.key.data ++ line.drop (s.cursor.col + 1)
      else line ++ e.key.data
    ({s with
        lines := s.lines.set s.cursor.line newLine,
        cursor := ⟨s.cursor.line, s.cursor.col + 1⟩,
        modified := true}, {})
  else (s, {})

/-- Model of `handleVisualModeKey` (source lines 967-1021).  The selection is the
line-wise range between anchor and cursor; `d`/`x` delete it into the
register, `y` copies it; both drop back to normal mode. -/
def handleVisualModeKey (e : KeyEvent) (s : EditorState) : EditorState × Fx :=
  if e.key = "Escape" then ({s with mode := .normal, visualStart := none}, {})
  else if e.key = "h" ∨ e.key = "ArrowLeft" then (moveLeftOp s s, {})
  else if e.key = "j" ∨ e.key = "ArrowDown" then (moveDownOp s s, {})
  else if e.key = "k" ∨ e.key = "ArrowUp" then (moveUpOp s s, {})
  else if e.key = "l" ∨ e.key = "ArrowRight" then (moveRightOp s s, {})
  else if e.key = "d" ∨ e.key = "x" then
    match s.visualStart with
    | some vs =>
      let startLine := min vs.line s.cursor.line
      let endLine := max vs.line s.cursor.line
      let deleted := (s.lines.drop startLine).take (endLine + 1 - startLine)
      ({s with
          yankBuffer := deleted,
          lines := spliceOrEmpty startLine (endLine - startLine + 1) s.lines,
          cursor := ⟨startLine, 0⟩,
          modified := true,
          mode := .normal,
          visualStart := none},
       {msgs := [natStr deleted.length ++ (" line".data)
          ++ (if 1 < deleted.length then ['s'] else []) ++ (" deleted".data)]})
    | none => ({s with mode := .normal, visualStart := none}, {})
  else if e.key = "y" then
    match s.visualStart with
    | some vs =>
      let startLine := min vs.line s.cursor.line
      let endLine := max vs.line s.cursor.line
      let yanked := (s.lines.drop startLine).take (endLine + 1 - startLine)
      ({s with yankBuffer := yanked, mode := .normal, visualStart := none},
       {msgs := [natStr yanked.length ++ (" line".data)
          ++ (if 1 < yanked.length then ['s'] else []) ++ (" yanked".data)]})
    | none => ({s with mode := .normal, visualStart := none}, {})
  else (s, {})

/-- Model of `handleKeyDown` (source lines 1024-1044): dispatch on the current mode.
In command mode keystrokes go to the command-line input, not to this
handler. -/
def handleKeyDown (e : KeyEvent) (s : EditorState) : EditorState × Fx :=
  match s.mode with
  | .normal => handleNormalModeKey e s
  | .insert => handleInsertModeKey e s
  | .replace => handleReplaceModeKey e s
  | .visual => handleVisualModeKey e s
  | .command => (s, {})

/-- One unit of user input: a key event to the editor area, typing into the
command-line input, submitting it, or Escape inside it. -/
inductive EdInput where
  | keyIn (e : KeyEvent)
  | cmdType (t : Str)
  | cmdSubmit
  | cmdEsc
deriving DecidableEq, Repr

/-- Process one input: `cmdSubmit` runs `executeVimCommand` on the command
buffer and clears it; the command-line input exists only in command mode. -/
def stepInput : EdInput → EditorState → EditorState × Fx
  | .keyIn e, s => handleKeyDown e s
  | .cmdType t, s =>
    (if s.mode = .command then {s with commandBuffer := t} else s, {})
  | .cmdSubmit, s =>
    if s.mode = .command then
      let r := executeVimCommand s.commandBuffer s
      ({r.1 with commandBuffer := []}, r.2)
    else (s, {})
  | .cmdEsc, s =>
    (if s.mode = .command then {s with mode := .normal, commandBuffer := []}
     else s, {})

/-- Run a list of inputs, discarding effects. -/
def runInputs (s : EditorState) : List EdInput → EditorState
  | [] => s
  | i :: is => runInputs (stepInput i s).1 is

/-- Run a list of inputs, accumulating effects in order. -/
def runInputsFx (s : EditorState) : List EdInput → EditorState × Fx
  | [] => (s, {})
  | i :: is =>
    let r := stepInput i s
    let r2 := runInputsFx r.1 is
    (r2.1, mergeFx r.2 r2.2)

/-- The component's initial state: the content split on newlines (the
`length > 0` ternary of the source included), normal mode, cursor at the
origin, everything else empty. -/
def initialState (filename content : Str) : EditorState :=
  { filename := filename
    lines := if (jsSplit ['\n'] content).length > 0 then jsSplit ['\n'] content else [[]]
    mode := .normal
    cursor := ⟨0, 0⟩
    commandBuffer := []
    modified := false
    visualStart := none
    yankBuffer := []
    searchPattern := []
    lastCommand := []
    numberBuffer := [] }

/-- Shorthand for a plain key event. -/
def key (k : String) : EdInput := .keyIn ⟨k, false, false⟩

/-! ## Basic lemmas about the string utilities -/

theorem strStarts_le_length {p s : Str} (h : strStarts p s = true) :
    p.length ≤ s.length := by
  induction p generalizing s with
  | nil => simp
  | cons a ps ih =>
    cases s with
    | nil => simp [strStarts] at h
    | cons c cs =>
      simp only [strStarts, Bool.and_eq_true] at h
      simpa using Nat.succ_le_succ (ih h.2)

theorem findSub_bound {pat s : Str} {i : Nat} (h : findSub pat s = some i) :
    i + pat.length ≤ s.length := by
  induction s generalizing i with
  | nil =>
    simp only [findSub] at h
    split at h
    · cases h
      simp_all
    · cases h
  | cons c rest ih =>
    simp only [findSub] at h
    split at h
    · cases h
      simpa using strStarts_le_length (by assumption)
    · simp only [Option.map_eq_some'] at h
      obtain ⟨j, hj, rfl⟩ := h
      have := ih hj
      simp only [List.length_cons]
      omega

theorem jsSplitGo_ne_nil (sep : Str) (f : Nat) (s : Str) :
    jsSplitGo sep f s ≠ [] := by
  cases f with
  | zero => simp [jsSplitGo]
  | succ n =>
    simp only [jsSplitGo]
    split <;> simp

/-- With fuel at least the length of the string, the fuel does not matter. -/
theorem jsSplitGo_fuel (sep : Str) (hsep : sep ≠ []) :
    ∀ f g s, s.length ≤ f → s.length ≤ g →
      jsSplitGo sep f s = jsSplitGo sep g s := by
  intro f
  induction f with
  | zero =>
    intro g s hf hg
    have : s = [] := List.length_eq_zero.mp (Nat.le_zero.mp hf)
    subst this
    cases g with
    | zero => rfl
    | succ g' =>
      simp only [jsSplitGo]
      have : findSub sep [] = none := by
        simp only [findSub]
        split
        · exact absurd (by assumption) hsep
        · rfl
      rw [this]
  | succ f' ih =>
    intro g s hf hg
    cases s with
    | nil =>
      cases g with
      | zero =>
        simp only [jsSplitGo]
        have : findSub sep [] = none := by
          simp only [findSub]
          split
          · exact absurd (by assumption) hsep
          · rfl
        rw [this]
      | succ g' =>
        simp only [jsSplitGo]
        have : findSub sep [] = none := by
          simp only [findSub]
          split
          · exact absurd (by assumption) hsep
          · rfl
        rw [this]
    | cons c cs =>
      have hg1 : 0 < g := by simp at hg; omega
      obtain ⟨g', rfl⟩ : ∃ g'', g = g'' + 1 := ⟨g - 1, by omega⟩
      simp only [jsSplitGo]
      cases hfs : findSub sep (c :: cs) with
      | none => rfl
      | some i =>
        have hb := findSub_bound hfs
        have hsl : 1 ≤ sep.length := by
          cases sep with
          | nil => exact absurd rfl hsep
          | cons _ _ => simp
        have hlen : ((c :: cs).drop (i + sep.length)).length ≤ f' := by
          simp only [List.length_drop]
          simp only [List.length_cons] at hf hb ⊢
          omega
        have hlen2 : ((c :: cs).drop (i + sep.length)).length ≤ g' := by
          simp only [List.length_drop]
          simp only [List.length_cons] at hg hb ⊢
          omega
        dsimp only
        rw [ih g' _ hlen hlen2]

theorem strStarts_single (d c : Char) (l : Str) :
    strStarts [d] (c :: l) = decide (d = c) := by
  simp [strStarts]

theorem findSub_not_mem {d : Char} {a : Str} (h : d ∉ a) :
    findSub [d] a = none := by
  induction a with
  | nil => simp [findSub]
  | cons c cs ih =>
    have hdc : d ≠ c := by
      intro hh
      exact h (hh ▸ List.mem_cons_self c cs)
    simp only [findSub, strStarts_single, hdc, decide_False, Bool.false_eq_true,
      if_false, ih (fun hm => h (List.mem_cons_of_mem c hm)), Option.map_none']

theorem findSub_append_single {d : Char} {a : Str} (b : Str) (h : d ∉ a) :
    findSub [d] (a ++ d :: b) = some a.length := by
  induction a with
  | nil => simp [findSub, strStarts]
  | cons c cs ih =>
    have hdc : d ≠ c := by
      intro hh
      exact h (hh ▸ List.mem_cons_self c cs)
    rw [List.cons_append]
    simp only [findSub, strStarts_single, hdc, decide_False, Bool.false_eq_true,
      if_false, ih (fun hm => h (List.mem_cons_of_mem c hm)), Option.map_some',
      List.length_cons]

theorem jsSplit_no_occ {d : Char} {a : Str} (h : d ∉ a) :
    jsSplit [d] a = [a] := by
  unfold jsSplit
  rw [if_neg (by simp)]
  cases hl : a.length with
  | zero => simp only [jsSplitGo, findSub_not_mem h]
  | succ n => simp only [jsSplitGo, findSub_not_mem h]

theorem jsSplitGo_step (sep : Str) (f : Nat) (s : Str) :
    jsSplitGo sep (f + 1) s =
      match findSub sep s with
      | none => [s]
      | some i => s.take i :: jsSplitGo sep f (s.drop (i + sep.length)) := rfl

theorem replAllGo_step (old new : Str) (f : Nat) (s : Str) :
    replAllGo old new (f + 1) s =
      match findSub old s with
      | none => s
      | some i => s.take i ++ new ++ replAllGo old new f (s.drop (i + old.length)) := rfl

theorem jsSplit_append_single {d : Char} {a : Str} (b : Str) (h : d ∉ a) :
    jsSplit [d] (a ++ d :: b) = a :: jsSplit [d] b := by
  have hsep : ([d] : Str) ≠ [] := by simp
  unfold jsSplit
  rw [if_neg hsep, if_neg hsep]
  have hlen : (a ++ d :: b).length + 1 = (a.length + b.length + 1) + 1 := by
    simp
    omega
  rw [hlen, jsSplitGo_step, findSub_append_single b h]
  dsimp only
  have htake : (a ++ d :: b).take a.length = a := List.take_left a (d :: b)
  have hdrop : (a ++ d :: b).drop (a.length + 1) = b := by
    have h1 : a.length + 1 = (a ++ [d]).length := by simp
    have h2 : a ++ d :: b = (a ++ [d]) ++ b := by simp
    rw [h1, h2, List.drop_left]
  simp only [List.length_singleton, htake, hdrop]
  rw [jsSplitGo_fuel [d] hsep (a.length + b.length + 1) (b.length + 1) b
    (by omega) (by omega)]

/-- Joining a nonempty-separator split with `new` is literal replace-all. -/
theorem jsJoin_splitGo_eq_replAllGo (old new : Str) (_hold : old ≠ []) :
    ∀ f s, jsJoin new (jsSplitGo old f s) = replAllGo old new f s := by
  intro f
  induction f with
  | zero => intro s; rfl
  | succ f' ih =>
    intro s
    rw [jsSplitGo_step, replAllGo_step]
    cases hfs : findSub old s with
    | none => rfl
    | some i =>
      dsimp only
      cases hgo : jsSplitGo old f' (s.drop (i + old.length)) with
      | nil => exact absurd hgo (jsSplitGo_ne_nil old f' _)
      | cons y ys =>
        calc jsJoin new (s.take i :: y :: ys)
            = s.take i ++ new ++ jsJoin new (y :: ys) := by
              simp [jsJoin, List.append_assoc]
          _ = s.take i ++ new ++ replAllGo old new f' (s.drop (i + old.length)) := by
              rw [← hgo, ih]

theorem jsJoin_split_eq_replaceAll (old new s : Str) (hold : old ≠ []) :
    jsJoin new (jsSplit old s) = replaceAllLiteral old new s := by
  unfold jsSplit replaceAllLiteral
  rw [if_neg hold]
  exact jsJoin_splitGo_eq_replAllGo old new hold (s.length + 1) s

/-- Without a dollar in the replacement, `GetSubstitution` is the identity. -/
theorem getSubst_no_dollar (m pre post r : Str) (h : '$' ∉ r) :
    getSubst m pre post r = r := by
  induction r with
  | nil => rfl
  | cons c cs ih =>
    have hc : ¬(c = '$') := by
      intro hh
      exact h (hh ▸ List.mem_cons_self c cs)
    have hcs : '$' ∉ cs := fun hm => h (List.mem_cons_of_mem c hm)
    cases cs with
    | nil => rfl
    | cons c2 r2 =>
      simp only [getSubst, hc, if_false]
      rw [ih hcs]

/-- Model lemma: `String.replace` with a dollar-free replacement is the literal
first-occurrence replacement. -/
theorem jsReplace_no_dollar (old new s : Str) (h : '$' ∉ new) :
    jsReplace old new s = replaceFirstLiteral old new s := by
  unfold jsReplace replaceFirstLiteral
  cases hfs : findSub old s with
  | none => rfl
  | some i =>
    dsimp only
    rw [getSubst_no_dollar _ _ _ _ h]


theorem jsTrim_eq_self (c d : Char) (m : Str) (hc : isWS c = false)
    (hd : isWS d = false) : jsTrim ((c :: m) ++ [d]) = (c :: m) ++ [d] := by
  unfold jsTrim
  rw [List.cons_append]
  have h1 : List.dropWhile isWS (c :: (m ++ [d])) = c :: (m ++ [d]) := by
    rw [List.dropWhile_cons]
    simp [hc]
  rw [h1]
  have hrev : (c :: (m ++ [d])).reverse = d :: (m.reverse ++ [c]) := by simp
  rw [hrev]
  have h2 : List.dropWhile isWS (d :: (m.reverse ++ [c])) = d :: (m.reverse ++ [c]) := by
    rw [List.dropWhile_cons]
    simp [hd]
  rw [h2]
  simp

theorem jsTrim_single (c : Char) (hc : isWS c = false) :
    jsTrim [c] = [c] := by
  unfold jsTrim
  have h1 : List.dropWhile isWS [c] = [c] := by
    rw [List.dropWhile_cons]
    simp [hc]
  rw [h1]
  simp only [List.reverse_cons, List.reverse_nil, List.nil_append]
  rw [h1]
  simp

theorem listSplice_insert (i : Nat) (items l : List α) (h : i ≤ l.length) :
    listSplice i 0 items l = l.take i ++ items ++ l.drop i := by
  unfold listSplice
  simp [min_eq_left h]

theorem spliceOrEmpty_ne_nil (a b : Nat) (l : List Str) :
    1 ≤ (spliceOrEmpty a b l).length := by
  by_cases h : listSplice a b ([] : List Str) l = []
  · simp [spliceOrEmpty, h]
  · simp only [spliceOrEmpty, if_neg h]
    have := List.length_pos.mpr h
    omega

/-- The text of `s/old/new/flags`. -/
def subCmdOf (old new flags : Str) : Str :=
  ['s', '/'] ++ old ++ ['/'] ++ new ++ ['/'] ++ flags

/-- The text of `%s/old/new/flags`. -/
def pctCmdOf (old new flags : Str) : Str :=
  ['%'] ++ subCmdOf old new flags

theorem subCmdOf_cons (old new flags : Str) :
    subCmdOf old new flags = 's' :: '/' :: (old ++ '/' :: (new ++ '/' :: flags)) := by
  simp [subCmdOf]

theorem jsSplit_subCmd (old new flags : Str) (ho : '/' ∉ old) (hn : '/' ∉ new)
    (hf : '/' ∉ flags) :
    jsSplit ['/'] (subCmdOf old new flags) = [['s'], old, new, flags] := by
  have h1 : subCmdOf old new flags
      = ['s'] ++ '/' :: (old ++ '/' :: (new ++ '/' :: flags)) := by
    simp [subCmdOf]
  rw [h1, jsSplit_append_single _ (by simp), jsSplit_append_single _ ho,
    jsSplit_append_single _ hn, jsSplit_no_occ hf]

theorem jsTrim_subCmd (old new flags : Str) (hf : flags = [] ∨ flags = ['g']) :
    jsTrim (subCmdOf old new flags) = subCmdOf old new flags := by
  rcases hf with rfl | rfl
  · have h1 : subCmdOf old new [] = ('s' :: ('/' :: old ++ '/' :: new)) ++ ['/'] := by
      simp [subCmdOf]
    rw [h1]
    exact jsTrim_eq_self 's' '/' ('/' :: old ++ '/' :: new) (by decide) (by decide)
  · have h1 : subCmdOf old new ['g']
        = ('s' :: ('/' :: old ++ '/' :: new ++ ['/'])) ++ ['g'] := by
      simp [subCmdOf]
    rw [h1]
    exact jsTrim_eq_self 's' 'g' ('/' :: old ++ '/' :: new ++ ['/']) (by decide) (by decide)

theorem exec_subCmd (old new flags : Str) (hf : flags = [] ∨ flags = ['g'])
    (s : EditorState) :
    executeVimCommand (subCmdOf old new flags) s
      = cmdSubst (subCmdOf old new flags) s := by
  simp only [executeVimCommand, jsTrim_subCmd old new flags hf]
  rw [subCmdOf_cons]
  rfl

theorem pctCmdOf_cons (old new flags : Str) :
    pctCmdOf old new flags
      = '%' :: 's' :: '/' :: (old ++ '/' :: (new ++ '/' :: flags)) := by
  simp [pctCmdOf, subCmdOf]

theorem jsTrim_pctCmd (old new flags : Str) (hf : flags = [] ∨ flags = ['g']) :
    jsTrim (pctCmdOf old new flags) = pctCmdOf old new flags := by
  rcases hf with rfl | rfl
  · have h1 : pctCmdOf old new []
        = ('%' :: ('s' :: '/' :: old ++ '/' :: new)) ++ ['/'] := by
      simp [pctCmdOf, subCmdOf]
    rw [h1]
    exact jsTrim_eq_self '%' '/' ('s' :: '/' :: old ++ '/' :: new) (by decide) (by decide)
  · have h1 : pctCmdOf old new ['g']
        = ('%' :: ('s' :: '/' :: old ++ '/' :: new ++ ['/'])) ++ ['g'] := by
      simp [pctCmdOf, subCmdOf]
    rw [h1]
    exact jsTrim_eq_self '%' 'g' ('s' :: '/' :: old ++ '/' :: new ++ ['/']) (by decide)
      (by decide)

theorem exec_pctCmd (old new flags : Str) (hf : flags = [] ∨ flags = ['g'])
    (s : EditorState) :
    executeVimCommand (pctCmdOf old new flags) s
      = cmdGlobalSubst (pctCmdOf old new flags) s := by
  simp only [executeVimCommand, jsTrim_pctCmd old new flags hf]
  rw [pctCmdOf_cons]
  rfl

/-- Claim C8 (amended): `s/old/new/` substitutes on the cursor's line only,
replacing the first occurrence (all occurrences with the `g` flag); `new` is
inserted literally in the `g` form unconditionally, and in the non-`g` form
whenever it contains no `$` (only the non-`g` form goes through
`String.replace` and interprets JS dollar escapes); `1 substitution` is
reported exactly when the line changed, otherwise `Pattern not found` with
the buffer untouched; on `["a,b,c"]`, `s/,/;/` gives `a;b,c` and `s/,/;/g`
gives `a;b;c`. -/
theorem claim8 :
    (∀ (s : EditorState) (old new flags : Str),
      flags = [] ∨ flags = ['g'] → '/' ∉ old → '/' ∉ new → old ≠ [] →
      ('g' ∈ flags ∨ '$' ∉ new) → s.cursor.line < s.lines.length →
      ((if 'g' ∈ flags then
          replaceAllLiteral old new (s.lines.getD s.cursor.line [])
        else replaceFirstLiteral old new (s.lines.getD s.cursor.line []))
          ≠ s.lines.getD s.cursor.line [] →
        (executeVimCommand (subCmdOf old new flags) s).1.lines
            = s.lines.set s.cursor.line
              (if 'g' ∈ flags then
                replaceAllLiteral old new (s.lines.getD s.cursor.line [])
              else replaceFirstLiteral old new (s.lines.getD s.cursor.line [])) ∧
        (executeVimCommand (subCmdOf old new flags) s).2.msgs
            = ["1 substitution".data] ∧
        (executeVimCommand (subCmdOf old new flags) s).1.modified = true) ∧
      ((if 'g' ∈ flags then
          replaceAllLiteral old new (s.lines.getD s.cursor.line [])
        else replaceFirstLiteral old new (s.lines.getD s.cursor.line []))
          = s.lines.getD s.cursor.line [] →
        (executeVimCommand (subCmdOf old new flags) s).1.lines = s.lines ∧
        (executeVimCommand (subCmdOf old new flags) s).2.msgs
            = ["Pattern not found".data]) ∧
      (executeVimCommand (subCmdOf old new flags) s).1.mode = .normal) ∧
    (executeVimCommand ("s/,/;/".data)
        (initialState ("f".data) ("a,b,c".data))).1.lines = ["a;b,c".data] ∧
    (executeVimCommand ("s/,/;/g".data)
        (initialState ("f".data) ("a,b,c".data))).1.lines = ["a;b;c".data] := by
  refine ⟨?_, by decide, by decide⟩
  intro s old new flags hf ho hn holdne hgd _hcur
  have hfs : '/' ∉ flags := by
    rcases hf with rfl | rfl <;> simp
  rw [exec_subCmd old new flags hf]
  unfold cmdSubst
  rw [jsSplit_subCmd old new flags ho hn hfs]
  rw [if_pos (show ([['s'], old, new, flags] : List Str).length ≥ 3 by simp)]
  simp only [List.getD_cons_succ, List.getD_cons_zero]
  unfold subRule
  by_cases hg : 'g' ∈ flags
  · simp only [hg, if_true]
    rw [jsJoin_split_eq_replaceAll _ _ _ holdne]
    by_cases hch : replaceAllLiteral old new (s.lines.getD s.cursor.line [])
        = s.lines.getD s.cursor.line []
    · rw [if_neg (not_ne_iff.mpr hch)]
      exact ⟨fun hne => absurd hch hne, fun _ => ⟨rfl, rfl⟩, rfl⟩
    · rw [if_pos hch]
      exact ⟨fun _ => ⟨rfl, rfl, rfl⟩, fun heq => absurd heq hch, rfl⟩
  · simp only [hg, if_false]
    have hd : '$' ∉ new := by
      rcases hgd with hg2 | hd2
      · exact absurd hg2 hg
      · exact hd2
    rw [jsReplace_no_dollar _ _ _ hd]
    by_cases hch : replaceFirstLiteral old new (s.lines.getD s.cursor.line [])
        = s.lines.getD s.cursor.line []
    · rw [if_neg (not_ne_iff.mpr hch)]
      exact ⟨fun hne => absurd hch hne, fun _ => ⟨rfl, rfl⟩, rfl⟩
    · rw [if_pos hch]
      exact ⟨fun _ => ⟨rfl, rfl, rfl⟩, fun heq => absurd heq hch, rfl⟩

/-- Witness for C8 at `s/,/;/` on `["a,b,c"]`, and at the `g` form
`s/a/$x/g` on `["aba"]`, whose dollar-carrying replacement is inserted
literally. -/
theorem claim8_witness :
    (executeVimCommand (subCmdOf (",".data) (";".data) [])
        (initialState ("f".data) ("a,b,c".data))).1.lines = ["a;b,c".data] ∧
    (executeVimCommand (subCmdOf (",".data) (";".data) [])
        (initialState ("f".data) ("a,b,c".data))).2.msgs
      = ["1 substitution".data] ∧
    (executeVimCommand (subCmdOf ("a".data) ("$x".data) ['g'])
        (initialState ("f".data) ("aba".data))).1.lines = ["$xb$x".data] ∧
    (executeVimCommand (subCmdOf ("a".data) ("$x".data) ['g'])
        (initialState ("f".data) ("aba".data))).2.msgs
      = ["1 substitution".data] := by
  have h := (claim8.1 (initialState ("f".data) ("a,b,c".data)) (",".data) (";".data)
    [] (Or.inl rfl) (by decide) (by decide) (by decide) (Or.inr (by decide))
    (by decide)).1 (by decide)
  have h2 := (claim8.1 (initialState ("f".data) ("aba".data)) ("a".data) ("$x".data)
    ['g'] (Or.inr rfl) (by decide) (by decide) (by decide) (Or.inl (by decide))
    (by decide)).1 (by decide)
  refine ⟨?_, h.2.1, ?_, h2.2.1⟩
  · rw [h.1]
    decide
  · rw [h2.1]
    decide

/-- Counterexample for C8 as stated: with replacement text `$&$&`, the code
substitutes the JS dollar escapes (`s/a/$&$&/` on `["a"]` yields `["aa"]`),
not the literal replacement text. -/
theorem claim8_counterexample :
    (executeVimCommand (subCmdOf ("a".data) ("$&$&".data) [])
        (initialState ("f".data) ("a".data))).1.lines = ["aa".data] ∧
    ("aa".data) ≠ replaceFirstLiteral ("a".data) ("$&$&".data) ("a".data) := by
  exact ⟨by decide, by decide⟩

/-- Claim C9: `%s/old/new/` and `%s/old/new/g` apply the current-line
substitution rule to every line of the buffer, and the reported message
states the count of lines actually changed. -/
theorem claim9 :
    ∀ (s : EditorState) (old new flags : Str),
      flags = [] ∨ flags = ['g'] → '/' ∉ old → '/' ∉ new →
      (executeVimCommand (pctCmdOf old new flags) s).1.lines
          = s.lines.map (subRule old new flags) ∧
      (executeVimCommand (pctCmdOf old new flags) s).2.msgs
          = [natStr (s.lines.countP (fun l => decide (subRule old new flags l ≠ l)))
             ++ (" substitution".data)
             ++ (if s.lines.countP (fun l => decide (subRule old new flags l ≠ l)) = 1
                 then [] else ['s'])] ∧
      (executeVimCommand (pctCmdOf old new flags) s).1.mode = .normal := by
  intro s old new flags hf ho hn
  have hfs : '/' ∉ flags := by
    rcases hf with rfl | rfl <;> simp
  rw [exec_pctCmd old new flags hf]
  unfold cmdGlobalSubst
  rw [pctCmdOf_cons]
  have hdrop : ('%' :: 's' :: '/' :: (old ++ '/' :: (new ++ '/' :: flags)) : Str).drop 1
      = subCmdOf old new flags := by
    rw [subCmdOf_cons]
    rfl
  rw [hdrop, jsSplit_subCmd old new flags ho hn hfs]
  rw [if_pos (show ([['s'], old, new, flags] : List Str).length ≥ 3 by simp)]
  simp only [List.getD_cons_succ, List.getD_cons_zero]
  refine ⟨?_, ?_, ?_⟩ <;> trivial

/-- Witness for C9: `%s/,/;/g` on `["a,b", "c", "d,,e"]` rewrites every line
and reports `2 substitutions`. -/
theorem claim9_witness :
    (executeVimCommand (pctCmdOf (",".data) (";".data) ['g'])
        (initialState ("f".data) ("a,b\nc\nd,,e".data))).1.lines
      = ["a;b".data, "c".data, "d;;e".data] ∧
    (executeVimCommand (pctCmdOf (",".data) (";".data) ['g'])
        (initialState ("f".data) ("a,b\nc\nd,,e".data))).2.msgs
      = ["2 substitutions".data] := by
  have h := claim9 (initialState ("f".data) ("a,b\nc\nd,,e".data)) (",".data)
    (";".data) ['g'] (Or.inr rfl) (by decide) (by decide)
  refine ⟨?_, ?_⟩
  · rw [h.1]
    decide
  · rw [h.2.1]
    decide

/-! ## Claims about the line-deletion invariant and operators -/

/-- A line-deleting operation: `dd` with any count at any line, or a
visual-mode delete of the selection anchored at any line. -/
inductive LineDelOp where
  | dd (line count : Nat)
  | vis (anchorLine curLine : Nat)
deriving DecidableEq, Repr

/-- Apply one line-deleting operation through the program's own functions:
`deleteLineOp` for `dd`, and the visual-mode handler receiving `d` for the
visual delete. -/
def applyDelOp : LineDelOp → EditorState → EditorState
  | .dd l c, s => (deleteLineOp c {s with cursor := ⟨l, s.cursor.col⟩}).1
  | .vis a l, s =>
    (handleVisualModeKey ⟨"d", false, false⟩
      {s with
        mode := .visual
        visualStart := some ⟨a, 0⟩
        cursor := ⟨l, s.cursor.col⟩}).1

def applyDelOps (s : EditorState) : List LineDelOp → EditorState
  | [] => s
  | op :: ops => applyDelOps (applyDelOp op s) ops

/-- Claim C1: the buffer of a fresh editor is nonempty, and any sequence of
line-deleting operations (`dd` with any count, visual delete of any
selection) keeps it nonempty. -/
theorem claim1 :
    (∀ filename content : Str, 1 ≤ (initialState filename content).lines.length) ∧
    (∀ (s : EditorState) (ops : List LineDelOp),
      1 ≤ s.lines.length → 1 ≤ (applyDelOps s ops).lines.length) := by
  constructor
  · intro f c
    show 1 ≤ (if (jsSplit ['\n'] c).length > 0 then jsSplit ['\n'] c else [[]]).length
    split
    · omega
    · simp
  · intro s ops
    induction ops generalizing s with
    | nil => intro h; exact h
    | cons op ops ih =>
      intro _h
      refine ih (applyDelOp op s) ?_
      cases op with
      | dd l c => exact spliceOrEmpty_ne_nil _ _ _
      | vis a l =>
        have hv : (applyDelOp (LineDelOp.vis a l) s).lines
            = spliceOrEmpty (min a l) (max a l - min a l + 1) s.lines := rfl
        rw [hv]
        exact spliceOrEmpty_ne_nil _ _ _

/-- Witness for C1: a two-line buffer stays nonempty under a `dd` and a
visual delete. -/
theorem claim1_witness :
    1 ≤ (initialState ("f".data) ("a\nb".data)).lines.length ∧
    1 ≤ (applyDelOps (initialState ("f".data) ("a\nb".data))
      [LineDelOp.dd 0 5, LineDelOp.vis 0 3]).lines.length := by
  exact ⟨claim1.1 ("f".data) ("a\nb".data),
    claim1.2 (initialState ("f".data) ("a\nb".data))
      [LineDelOp.dd 0 5, LineDelOp.vis 0 3] (by decide)⟩

/-- Claim C2 (amended): `clampCursor` always produces a line index in
`[0, len(buffer)-1]` and a column in `[0, lineLength]` (insert mode) or
`[0, max(lineLength-1, 0)]` (other modes); reachable states themselves need
not satisfy the column bound, since operations that shorten the cursor's
line do not re-clamp. -/
theorem claim2 :
    ∀ (m : VimMode) (p : CursorPosition) (lns : List Str), 1 ≤ lns.length →
      (clampCursor m p lns).line < lns.length ∧
      (m = .insert →
        (clampCursor m p lns).col
          ≤ (lns.getD (clampCursor m p lns).line []).length) ∧
      (m ≠ .insert →
        (clampCursor m p lns).col
          ≤ max ((lns.getD (clampCursor m p lns).line []).length - 1) 0) := by
  intro m p lns h
  have hlin : lineLenOr1 lns (min p.line (lns.length - 1)) - 1
      = (lns.getD (min p.line (lns.length - 1)) []).length - 1 := by
    simp only [lineLenOr1]
    split <;> omega
  by_cases hmi : m = .insert
  · have hcc : clampCursor m p lns
        = ⟨min p.line (lns.length - 1),
           min p.col ((lns.getD (min p.line (lns.length - 1)) []).length)⟩ := by
      simp only [clampCursor, hmi, if_true]
    rw [hcc]
    refine ⟨?_, fun _ => ?_, fun hne => absurd hmi hne⟩
    · dsimp only
      omega
    · dsimp only
      omega
  · have hcc : clampCursor m p lns
        = ⟨min p.line (lns.length - 1),
           min p.col (lineLenOr1 lns (min p.line (lns.length - 1)) - 1)⟩ := by
      simp only [clampCursor, hmi, if_false]
    rw [hcc]
    refine ⟨?_, fun hi => absurd hi hmi, fun _ => ?_⟩
    · dsimp only
      omega
    · dsimp only
      rw [hlin]
      omega

/-- Witness for C2 at a far-out position in a one-line buffer. -/
theorem claim2_witness :
    (clampCursor .normal ⟨5, 7⟩ [("ab".data)]).line < ([("ab".data)] : List Str).length ∧
    (clampCursor .normal ⟨5, 7⟩ [("ab".data)]).col
      ≤ max ((([("ab".data)] : List Str).getD
          (clampCursor .normal ⟨5, 7⟩ [("ab".data)]).line []).length - 1) 0 := by
  have h := claim2 .normal ⟨5, 7⟩ [("ab".data)] (by decide)
  exact ⟨h.1, h.2.2 (by decide)⟩

/-- Counterexample for C2 as stated: from buffer `["ab"]` the reachable key
sequence `l x` leaves normal mode with line `"a"` and cursor column 1,
outside `[0, max(lineLength-1, 0)] = [0, 0]`. -/
theorem claim2_counterexample :
    (runInputs (initialState ("f".data) ("ab".data)) [key ("l"), key ("x")]).mode
        = VimMode.normal ∧
    (runInputs (initialState ("f".data) ("ab".data)) [key ("l"), key ("x")]).lines
        = ["a".data] ∧
    (runInputs (initialState ("f".data) ("ab".data)) [key ("l"), key ("x")]).cursor.col
        = 1 ∧
    ¬((runInputs (initialState ("f".data) ("ab".data)) [key ("l"), key ("x")]).cursor.col
        ≤ max
          (((runInputs (initialState ("f".data) ("ab".data)) [key ("l"), key ("x")]).lines.getD
            (runInputs (initialState ("f".data) ("ab".data)) [key ("l"), key ("x")]).cursor.line
            []).length - 1)
          0) := by
  refine ⟨by decide, by decide, by decide, by decide⟩

/-- Claim C3 (amended): `dd` yanks exactly the removed `count` lines starting
at the cursor line and removes them from the buffer (leaving one empty line
if everything was removed); the cursor is re-clamped against the
pre-deletion buffer (or `['']` when `count` reached the buffer length), not
against the resulting buffer; on `["one","two","three"]` with cursor (0,0),
`dd` yields buffer `["two","three"]`, register `["one"]`, cursor (0,0). -/
theorem claim3 :
    (∀ (s : EditorState) (count : Nat), s.cursor.line < s.lines.length →
      (deleteLineOp count s).1.yankBuffer
          = (s.lines.drop s.cursor.line).take count ∧
      (s.lines.take s.cursor.line ++ s.lines.drop (s.cursor.line + count) ≠ [] →
        (deleteLineOp count s).1.lines
          = s.lines.take s.cursor.line ++ s.lines.drop (s.cursor.line + count)) ∧
      (s.lines.take s.cursor.line ++ s.lines.drop (s.cursor.line + count) = [] →
        (deleteLineOp count s).1.lines = [[]]) ∧
      (deleteLineOp count s).1.cursor
          = clampCursor s.mode s.cursor
              (if count < s.lines.length then s.lines else [[]])) ∧
    (runInputs (initialState ("f".data) ("one\ntwo\nthree".data))
        [key ("d"), key ("d")]).lines = ["two".data, "three".data] ∧
    (runInputs (initialState ("f".data) ("one\ntwo\nthree".data))
        [key ("d"), key ("d")]).yankBuffer = ["one".data] ∧
    (runInputs (initialState ("f".data) ("one\ntwo\nthree".data))
        [key ("d"), key ("d")]).cursor = ⟨0, 0⟩ := by
  refine ⟨?_, by decide, by decide, by decide⟩
  intro s count hcur
  have hsp : listSplice s.cursor.line count ([] : List Str) s.lines
      = s.lines.take s.cursor.line ++ s.lines.drop (s.cursor.line + count) := by
    unfold listSplice
    rw [min_eq_left (by omega)]
    simp
  refine ⟨rfl, fun hne => ?_, fun heq => ?_, rfl⟩
  · show spliceOrEmpty s.cursor.line count s.lines = _
    unfold spliceOrEmpty
    rw [hsp, if_neg hne]
  · show spliceOrEmpty s.cursor.line count s.lines = _
    unfold spliceOrEmpty
    rw [hsp, if_pos heq]

/-- Witness for C3 on the scenario buffer. -/
theorem claim3_witness :
    (deleteLineOp 1 (initialState ("f".data) ("one\ntwo\nthree".data))).1.yankBuffer
        = ["one".data] ∧
    (deleteLineOp 1 (initialState ("f".data) ("one\ntwo\nthree".data))).1.lines
        = ["two".data, "three".data] := by
  have h := claim3.1 (initialState ("f".data) ("one\ntwo\nthree".data)) 1 (by decide)
  refine ⟨by rw [h.1]; decide, ?_⟩
  rw [h.2.1 (by decide)]
  decide

/-- Counterexample for C3 as stated: deleting the last line of `["a","b"]`
with `dd` clamps the cursor against the pre-deletion buffer, so the cursor
line stays 1 although the resulting buffer has a single line — it is not
re-clamped into the resulting buffer. -/
theorem claim3_counterexample :
    (runInputs (initialState ("f".data) ("a\nb".data))
        [key ("j"), key ("d"), key ("d")]).lines = ["a".data] ∧
    (runInputs (initialState ("f".data) ("a\nb".data))
        [key ("j"), key ("d"), key ("d")]).cursor = ⟨1, 0⟩ ∧
    ¬((runInputs (initialState ("f".data) ("a\nb".data))
        [key ("j"), key ("d"), key ("d")]).cursor.line
      < (runInputs (initialState ("f".data) ("a\nb".data))
        [key ("j"), key ("d"), key ("d")]).lines.length) := by
  refine ⟨by decide, by decide, by decide⟩

/-- Claim C4: with the modified flag set, `:q` reports E37, does not invoke
the exit collaborator, returns to normal mode, and leaves buffer, cursor and
register unchanged; with the flag clear it invokes the exit collaborator. -/
theorem claim4 :
    ∀ s : EditorState,
      (s.modified = true →
        (executeVimCommand ("q".data) s).2.msgs = [e37Msg] ∧
        (executeVimCommand ("q".data) s).2.exited = false ∧
        (executeVimCommand ("q".data) s).1.mode = .normal ∧
        (executeVimCommand ("q".data) s).1.lines = s.lines ∧
        (executeVimCommand ("q".data) s).1.cursor = s.cursor ∧
        (executeVimCommand ("q".data) s).1.yankBuffer = s.yankBuffer) ∧
      (s.modified = false →
        (executeVimCommand ("q".data) s).2.exited = true) := by
  intro s
  have h : executeVimCommand ("q".data) s
      = if s.modified then ({s with mode := .normal}, {msgs := [e37Msg]})
        else (s, {exited := true}) := rfl
  constructor
  · intro hm
    rw [h, if_pos hm]
    exact ⟨rfl, rfl, rfl, rfl, rfl, rfl⟩
  · intro hm
    rw [h, if_neg (by simp [hm])]

/-- Witness for C4 in both modified states. -/
theorem claim4_witness :
    (executeVimCommand ("q".data)
        {initialState ("f".data) ("a".data) with modified := true}).2.exited = false ∧
    (executeVimCommand ("q".data)
        {initialState ("f".data) ("a".data) with modified := true}).2.msgs = [e37Msg] ∧
    (executeVimCommand ("q".data)
        (initialState ("f".data) ("a".data))).2.exited = true := by
  refine ⟨?_, ?_, ?_⟩
  · exact ((claim4 {initialState ("f".data) ("a".data) with modified := true}).1 rfl).2.1
  · exact ((claim4 {initialState ("f".data) ("a".data) with modified := true}).1 rfl).1
  · exact (claim4 (initialState ("f".data) ("a".data))).2 rfl

/-- Claim C5: `:w` invokes the save collaborator with exactly the buffer
lines joined by newlines, reports the written message with the line and
character counts of that text, clears the modified flag and returns to
normal mode; with initial content `a\nb\nc` the save collaborator receives
exactly that string. -/
theorem claim5 :
    (∀ s : EditorState,
      (executeVimCommand ("w".data) s).2.saved = [getContent s.lines] ∧
      (executeVimCommand ("w".data) s).2.msgs = [writtenMsg s.filename s.lines] ∧
      (executeVimCommand ("w".data) s).1.modified = false ∧
      (executeVimCommand ("w".data) s).1.mode = .normal ∧
      (executeVimCommand ("w".data) s).1.lines = s.lines ∧
      (executeVimCommand ("w".data) s).1.cursor = s.cursor) ∧
    (runInputsFx (initialState ("f".data) ("a\nb\nc".data))
        [key (":"), .cmdType ("w".data), .cmdSubmit]).2.saved = ["a\nb\nc".data] ∧
    writtenMsg ("f".data) (initialState ("f".data) ("a\nb\nc".data)).lines
      = ("\"f\" 3L, 5C written".data) := by
  refine ⟨?_, by decide, by decide⟩
  intro s
  exact ⟨rfl, rfl, rfl, rfl, rfl, rfl⟩

/-- Claim C10: with an empty register, `p` and `P` are complete no-ops:
state (in particular buffer, cursor, modified flag, mode) unchanged, no
status message, no collaborator calls. -/
theorem claim10 :
    ∀ s : EditorState, s.yankBuffer = [] →
      pasteAfterOp s = (s, ⟨[], [], false⟩) ∧
      pasteBeforeOp s = (s, ⟨[], [], false⟩) := by
  intro s h
  unfold pasteAfterOp pasteBeforeOp
  rw [if_pos h, if_pos h]
  exact ⟨rfl, rfl⟩

/-- Witness for C10 on a fresh buffer. -/
theorem claim10_witness :
    pasteAfterOp (initialState ("f".data) ("a\nb".data))
        = (initialState ("f".data) ("a\nb".data), ⟨[], [], false⟩) ∧
    pasteBeforeOp (initialState ("f".data) ("a\nb".data))
        = (initialState ("f".data) ("a\nb".data), ⟨[], [], false⟩) := by
  exact claim10 (initialState ("f".data) ("a\nb".data)) (by decide)

/-- Claim C6: `yy` then `p` at line `i` inserts the yanked lines immediately
after line `i` — the lines up to and including `i` and the order of all
later lines are unchanged — and the register is unchanged by the paste;
`yy` itself stores the `count` lines from `i` without mutating the buffer. -/
theorem claim6 :
    ∀ (s : EditorState) (count : Nat), 1 ≤ count →
      s.cursor.line < s.lines.length →
      (pasteAfterOp (yankLineOp count s).1).1.lines
          = s.lines.take (s.cursor.line + 1)
            ++ (yankLineOp count s).1.yankBuffer
            ++ s.lines.drop (s.cursor.line + 1) ∧
      (pasteAfterOp (yankLineOp count s).1).1.yankBuffer
          = (yankLineOp count s).1.yankBuffer ∧
      (yankLineOp count s).1.yankBuffer
          = (s.lines.drop s.cursor.line).take count ∧
      (yankLineOp count s).1.lines = s.lines ∧
      (yankLineOp count s).1.cursor = s.cursor := by
  intro s count hcnt hcur
  have hne : (yankLineOp count s).1.yankBuffer ≠ [] := by
    show (s.lines.drop s.cursor.line).take count ≠ []
    cases hdl : s.lines.drop s.cursor.line with
    | nil =>
      have : s.lines.length ≤ s.cursor.line := by
        have := congrArg List.length hdl
        simp only [List.length_drop, List.length_nil] at this
        omega
      omega
    | cons a l =>
      cases count with
      | zero => omega
      | succ m => simp
  unfold pasteAfterOp
  rw [if_neg hne]
  refine ⟨?_, rfl, rfl, rfl, rfl⟩
  show listSplice (s.cursor.line + 1) 0 ((s.lines.drop s.cursor.line).take count)
      s.lines = _
  rw [listSplice_insert _ _ _ (by omega)]
  rfl

/-- Witness for C6: `yy` then `p` on a three-line buffer duplicates the
cursor line right below itself. -/
theorem claim6_witness :
    (pasteAfterOp (yankLineOp 1 (initialState ("f".data) ("x\ny\nz".data))).1).1.lines
        = ["x".data, "x".data, "y".data, "z".data] ∧
    (pasteAfterOp (yankLineOp 1 (initialState ("f".data) ("x\ny\nz".data))).1).1.yankBuffer
        = (yankLineOp 1 (initialState ("f".data) ("x\ny\nz".data))).1.yankBuffer := by
  have h := claim6 (initialState ("f".data) ("x\ny\nz".data)) 1 (by decide) (by decide)
  refine ⟨?_, h.2.1⟩
  rw [h.1]
  decide

/-- Claim C7 (amended): with a nonempty register and an in-bounds cursor,
`p` splices the register after the cursor line and moves the cursor to the
first pasted line at column 0; `P` splices the register before the cursor
line but leaves the cursor untouched (its line index coincides with the
first pasted line, the column is not reset). -/
theorem claim7 :
    ∀ s : EditorState, s.yankBuffer ≠ [] → s.cursor.line < s.lines.length →
      (pasteAfterOp s).1.lines
          = s.lines.take (s.cursor.line + 1) ++ s.yankBuffer
            ++ s.lines.drop (s.cursor.line + 1) ∧
      (pasteAfterOp s).1.cursor = ⟨s.cursor.line + 1, 0⟩ ∧
      (pasteBeforeOp s).1.lines
          = s.lines.take s.cursor.line ++ s.yankBuffer
            ++ s.lines.drop s.cursor.line ∧
      (pasteBeforeOp s).1.cursor = s.cursor := by
  intro s hy hcur
  unfold pasteAfterOp pasteBeforeOp
  rw [if_neg hy, if_neg hy]
  refine ⟨?_, rfl, ?_, rfl⟩
  · exact listSplice_insert _ _ _ (by omega)
  · exact listSplice_insert _ _ _ (by omega)

/-- Witness for C7 on a two-line buffer with register `["x"]`. -/
theorem claim7_witness :
    (pasteAfterOp {initialState ("f".data) ("a\nb".data) with
        yankBuffer := ["x".data]}).1.lines = ["a".data, "x".data, "b".data] ∧
    (pasteAfterOp {initialState ("f".data) ("a\nb".data) with
        yankBuffer := ["x".data]}).1.cursor = ⟨1, 0⟩ ∧
    (pasteBeforeOp {initialState ("f".data) ("a\nb".data) with
        yankBuffer := ["x".data]}).1.lines = ["x".data, "a".data, "b".data] := by
  have h := claim7 {initialState ("f".data) ("a\nb".data) with
    yankBuffer := ["x".data]} (by decide) (by decide)
  refine ⟨?_, h.2.1, ?_⟩
  · rw [h.1]
    decide
  · rw [h.2.2.1]
    decide

/-- Counterexample for C7 as stated: `P` with register `["x"]` at cursor
(0,1) pastes before the line but leaves the column at 1, so the cursor does
not end at column 0 of the first pasted line. -/
theorem claim7_counterexample :
    (pasteBeforeOp {initialState ("f".data) ("ab".data) with
        yankBuffer := ["x".data], cursor := ⟨0, 1⟩}).1.lines
      = ["x".data, "ab".data] ∧
    (pasteBeforeOp {initialState ("f".data) ("ab".data) with
        yankBuffer := ["x".data], cursor := ⟨0, 1⟩}).1.cursor.col = 1 ∧
    ¬((pasteBeforeOp {initialState ("f".data) ("ab".data) with
        yankBuffer := ["x".data], cursor := ⟨0, 1⟩}).1.cursor.col = 0) := by
  refine ⟨by decide, by decide, by decide⟩
